import Mathlib

set_option maxRecDepth 400000

/-!
Verification of the request-security gateway of the nku inference API
(`cloud/inference_api/security.py`): input validation and sanitization,
prompt-injection detection, LLM-output guarding, client-IP validation and
the in-process sliding-window rate limiter.

Python strings are modelled as lists of Unicode code points (`List Char`);
Python dicts (insertion-ordered) as association lists; `time.time()` values
as integers (only order and subtraction matter to the code under study).
-/

namespace Security

/-- Python strings: sequences of Unicode code points. -/
abbrev PyStr := List Char

/-- Code points treated as whitespace by Python's `str.strip()` / `str.split()`. -/
def pyIsSpace (c : Char) : Bool :=
  c = '\t' ∨ c = '\n' ∨ c = Char.ofNat 0x0b ∨ c = Char.ofNat 0x0c ∨ c = '\r' ∨ c = ' ' ∨
  c = Char.ofNat 0x1c ∨ c = Char.ofNat 0x1d ∨ c = Char.ofNat 0x1e ∨ c = Char.ofNat 0x1f ∨
  c = Char.ofNat 0x85 ∨ c = Char.ofNat 0xa0 ∨ c = Char.ofNat 0x1680 ∨
  c = Char.ofNat 0x2000 ∨ c = Char.ofNat 0x2001 ∨ c = Char.ofNat 0x2002 ∨
  c = Char.ofNat 0x2003 ∨ c = Char.ofNat 0x2004 ∨ c = Char.ofNat 0x2005 ∨
  c = Char.ofNat 0x2006 ∨ c = Char.ofNat 0x2007 ∨ c = Char.ofNat 0x2008 ∨
  c = Char.ofNat 0x2009 ∨ c = Char.ofNat 0x200a ∨ c = Char.ofNat 0x2028 ∨
  c = Char.ofNat 0x2029 ∨ c = Char.ofNat 0x202f ∨ c = Char.ofNat 0x205f ∨
  c = Char.ofNat 0x3000

/-- Python `str.strip()` from the left. -/
def pyLStrip (s : PyStr) : PyStr := s.dropWhile pyIsSpace

/-- Python `str.strip()` from the right. -/
def pyRStrip (s : PyStr) : PyStr := (s.reverse.dropWhile pyIsSpace).reverse

/-- Python `str.strip()`. -/
def pyStrip (s : PyStr) : PyStr := pyRStrip (pyLStrip s)

/-- ASCII lower-casing of one code point (the fragment of `str.lower()`
exercised by the ASCII-only data of this module). -/
def asciiLower (c : Char) : Char :=
  if 'A' ≤ c ∧ c ≤ 'Z' then Char.ofNat (c.toNat + 32) else c

/-- Python `str.lower()`. -/
def pyLower (s : PyStr) : PyStr := s.map asciiLower

/-- Python substring containment, `needle in hay`. -/
def containsSub (needle : PyStr) : PyStr → Bool
  | [] => needle.isEmpty
  | c :: rest => needle.isPrefixOf (c :: rest) || containsSub needle rest

/-- One step-bounded pass of Python `str.replace(pat, repl)`; `fuel` bounds the
number of consumed input characters. -/
def replaceSubFuel (pat repl : PyStr) : Nat → PyStr → PyStr
  | 0, s => s
  | _ + 1, [] => []
  | fuel + 1, c :: rest =>
    if pat ≠ [] ∧ pat.isPrefixOf (c :: rest) then
      repl ++ replaceSubFuel pat repl fuel ((c :: rest).drop pat.length)
    else
      c :: replaceSubFuel pat repl fuel rest

/-- Python `s.replace(pat, repl)` (all non-overlapping occurrences, left to right). -/
def pyReplace (s pat repl : PyStr) : PyStr := replaceSubFuel pat repl s.length s

/-- Maximal runs of characters satisfying `p`; helper for `re.findall` of a
character-class `+` pattern and for Python's no-argument `str.split()`. -/
def runsByAux (p : Char → Bool) : PyStr → PyStr → List PyStr
  | cur, [] => if cur.isEmpty then [] else [cur.reverse]
  | cur, c :: rest =>
    if p c then runsByAux p (c :: cur) rest
    else if cur.isEmpty then runsByAux p [] rest
    else cur.reverse :: runsByAux p [] rest

/-- Maximal runs of characters satisfying `p` within a string. -/
def runsBy (p : Char → Bool) (s : PyStr) : List PyStr := runsByAux p [] s

/-- Python `str.split()` with no arguments: whitespace-separated words. -/
def pySplitWs (s : PyStr) : List PyStr := runsBy (fun c => !pyIsSpace c) s

/-- Python `str.split(sep)` for a one-character separator (keeps empty parts). -/
def splitOnAux (sep : Char) : PyStr → PyStr → List PyStr
  | cur, [] => [cur.reverse]
  | cur, c :: rest =>
    if c = sep then cur.reverse :: splitOnAux sep [] rest
    else splitOnAux sep (c :: cur) rest

/-- Python `str.split(sep)` for a one-character separator. -/
def pySplitOn (sep : Char) (s : PyStr) : List PyStr := splitOnAux sep [] s

/-- Result of input validation (`ValidationResult` dataclass). -/
structure ValidationResult where
  is_valid : Bool
  sanitized_value : PyStr
  errors : List String
  warnings : List String
deriving DecidableEq, Repr

/-! ## InputValidator constants -/

def MAX_TEXT_LENGTH : Nat := 2000
def MAX_SYMPTOM_LENGTH : Nat := 1000
def MAX_LANGUAGE_CODE_LENGTH : Nat := 10

/-- Allowed language codes for translation (`ALLOWED_LANGUAGES` set). -/
def ALLOWED_LANGUAGES : List PyStr :=
  ["en".data, "twi".data, "ak".data, "yo".data, "ha".data, "sw".data, "ewe".data,
   "ee".data, "ga".data, "ig".data, "zu".data, "xh".data, "am".data, "om".data,
   "ti".data, "so".data, "fr".data, "pt".data, "ar".data]

/-- Language code aliases (`LANGUAGE_ALIASES` dict): Twi=Akan, normalize to
canonical form. -/
def LANGUAGE_ALIASES : List (PyStr × PyStr) :=
  [("ak".data, "twi".data), ("akan".data, "twi".data), ("tw".data, "twi".data)]

/-- Lexicographic strict order on code-point sequences (Python `str <`). -/
def pyStrLt : PyStr → PyStr → Bool
  | [], [] => false
  | [], _ :: _ => true
  | _ :: _, [] => false
  | a :: as_, b :: bs => a < b || (a = b && pyStrLt as_ bs)

/-- Lexicographic order on code-point sequences (Python `str <=`). -/
def pyStrLe (a b : PyStr) : Bool := pyStrLt a b || a = b

/-- Python `sorted` on a list of strings. -/
def pySorted (l : List PyStr) : List PyStr :=
  List.insertionSort (fun a b => pyStrLe a b = true) l

/-- Python `", ".join(l)` producing a Lean `String` for an error message. -/
def joinComma (l : List PyStr) : String :=
  String.intercalate ", " (l.map (fun s => String.mk s))

/-- The `LEETSPEAK_MAP` translation table (`str.maketrans` argument). -/
def LEETSPEAK_MAP : List (Char × Char) :=
  [('0', 'o'), ('1', 'i'), ('3', 'e'), ('4', 'a'), ('5', 's'), ('7', 't'),
   ('@', 'a'), ('$', 's')]

/-- One-character translation through `LEETSPEAK_MAP` (Python `str.translate`
looks each code point up in the table and keeps it when absent). -/
def leetChar (c : Char) : Char :=
  match LEETSPEAK_MAP.lookup c with
  | some r => r
  | none => c

/-- `InputValidator._normalize_leetspeak`: detection-only leetspeak folding. -/
def normalize_leetspeak (s : PyStr) : PyStr := s.map leetChar

/-- Zero-width and invisible code points removed by `_sanitize_unicode`
(`dangerous_chars` list). -/
def DANGEROUS_CHARS : List Char :=
  [Char.ofNat 0x200b, Char.ofNat 0x200c, Char.ofNat 0x200d,
   Char.ofNat 0x2060, Char.ofNat 0xfeff, Char.ofNat 0x00ad]

/-- The Cyrillic/Greek homoglyph folding table (`homoglyph_map` dict, in
iteration order). -/
def HOMOGLYPH_MAP : List (Char × Char) :=
  [(Char.ofNat 0x0410, 'A'), (Char.ofNat 0x0412, 'B'), (Char.ofNat 0x0421, 'C'),
   (Char.ofNat 0x0415, 'E'), (Char.ofNat 0x041d, 'H'), (Char.ofNat 0x041a, 'K'),
   (Char.ofNat 0x041c, 'M'), (Char.ofNat 0x041e, 'O'), (Char.ofNat 0x0420, 'P'),
   (Char.ofNat 0x0422, 'T'), (Char.ofNat 0x0425, 'X'), (Char.ofNat 0x0405, 'S'),
   (Char.ofNat 0x0430, 'a'), (Char.ofNat 0x0441, 'c'), (Char.ofNat 0x0435, 'e'),
   (Char.ofNat 0x043e, 'o'), (Char.ofNat 0x0440, 'p'), (Char.ofNat 0x0445, 'x'),
   (Char.ofNat 0x0443, 'y'), (Char.ofNat 0x0455, 's'), (Char.ofNat 0x0456, 'i'),
   (Char.ofNat 0x0458, 'j'), (Char.ofNat 0x0391, 'A'), (Char.ofNat 0x0392, 'B'),
   (Char.ofNat 0x0395, 'E'), (Char.ofNat 0x0396, 'Z'), (Char.ofNat 0x0397, 'H'),
   (Char.ofNat 0x0399, 'I'), (Char.ofNat 0x039a, 'K'), (Char.ofNat 0x039c, 'M'),
   (Char.ofNat 0x039d, 'N'), (Char.ofNat 0x039f, 'O'), (Char.ofNat 0x03a1, 'P'),
   (Char.ofNat 0x03a4, 'T'), (Char.ofNat 0x03a5, 'Y'), (Char.ofNat 0x03a7, 'X'),
   (Char.ofNat 0x03bf, 'o')]

/-- Python `text.replace(c, '')` for a one-character pattern. -/
def replaceCharEmpty (c : Char) (s : PyStr) : PyStr := s.filter (fun x => x != c)

/-- Python `text.replace(a, b)` for one-character pattern and replacement. -/
def replaceCharChar (a b : Char) (s : PyStr) : PyStr :=
  s.map (fun x => if x = a then b else x)

/-- `InputValidator._sanitize_unicode`: strip the dangerous characters one by
one, then fold each homoglyph to its Latin replacement, mirroring the two
replacement loops of the source. -/
def sanitize_unicode (s : PyStr) : PyStr :=
  HOMOGLYPH_MAP.foldl (fun t p => replaceCharChar p.1 p.2 t)
    (DANGEROUS_CHARS.foldl (fun t c => replaceCharEmpty c t) s)

/-- Per-character survival predicate equivalent to the dangerous-character
stripping loop. -/
def keepChar (c : Char) : Bool :=
  DANGEROUS_CHARS.foldl (fun b k => b && (c != k)) true

/-- Per-character result of running the homoglyph replacement loop. -/
def homoglyphChar (c : Char) : Char :=
  HOMOGLYPH_MAP.foldl (fun x p => if x = p.1 then p.2 else x) c

/-- `InputValidator.validate_language`. -/
def validate_language (lang : Option PyStr) : ValidationResult :=
  match lang with
  | none => ⟨false, [], ["Language code is required"], []⟩
  | some l =>
    let sanitized := pyLower (pyStrip l)
    if sanitized.length > MAX_LANGUAGE_CODE_LENGTH then
      ⟨false, [], ["Invalid language code length"], []⟩
    else if !(ALLOWED_LANGUAGES.contains sanitized) then
      ⟨false, [],
       ["Unsupported language code: " ++ String.mk sanitized ++ ". Allowed: " ++
        joinComma (pySorted ALLOWED_LANGUAGES)], []⟩
    else ⟨true, sanitized, [], []⟩

/-! ## Regular-expression engine

A small backtracking matcher covering exactly the constructs used by the
compiled pattern lists of the module (literals under `re.IGNORECASE`,
character classes, `\s*`/`\s+`, `.*`, alternation, optional groups and the
word boundary `\b`).  Only match existence matters to the code (every use is
`pattern.search(text)` in boolean position), so greedy versus lazy repetition
is irrelevant. -/

/-- Regular expressions, as used by the module's pattern lists. -/
inductive Re where
  | fail : Re
  | eps : Re
  | lit : Char → Re
  | cls : (Char → Bool) → Re
  | seq : Re → Re → Re
  | alt : Re → Re → Re
  | opt : Re → Re
  | star : (Char → Bool) → Re
  | bnd : Re

/-- Word characters for `\b` (ASCII fragment of `\w`). -/
def isWordChar (c : Char) : Bool :=
  ('a' ≤ c ∧ c ≤ 'z') ∨ ('A' ≤ c ∧ c ≤ 'Z') ∨ ('0' ≤ c ∧ c ≤ '9') ∨ c = '_'

/-- Word/non-word boundary test between the previous and the next character. -/
def atBoundary (prev next : Option Char) : Bool :=
  (match prev with | some c => isWordChar c | none => false) !=
  (match next with | some c => isWordChar c | none => false)

/-- Match zero or more characters of class `p`, then the continuation. -/
def starLoop (p : Char → Bool) (prev : Option Char) (s : List Char)
    (k : Option Char → List Char → Bool) : Bool :=
  k prev s ||
  match s with
  | [] => false
  | c :: rest => p c && starLoop p (some c) rest k

/-- Backtracking matcher in continuation style.  Literal characters compare
case-insensitively (patterns are stored lower-cased, matching the modules'
universal `re.IGNORECASE`); `prev` carries the previous character for `\b`. -/
def reMatch : Re → Option Char → List Char → (Option Char → List Char → Bool) → Bool
  | .fail, _, _, _ => false
  | .eps, prev, s, k => k prev s
  | .lit c, _, s, k =>
    match s with
    | [] => false
    | a :: rest => asciiLower a == c && k (some a) rest
  | .cls p, _, s, k =>
    match s with
    | [] => false
    | a :: rest => p a && k (some a) rest
  | .seq r1 r2, prev, s, k => reMatch r1 prev s (fun p' s' => reMatch r2 p' s' k)
  | .alt r1 r2, prev, s, k => reMatch r1 prev s k || reMatch r2 prev s k
  | .opt r, prev, s, k => reMatch r prev s k || k prev s
  | .star p, prev, s, k => starLoop p prev s k
  | .bnd, prev, s, k => atBoundary prev s.head? && k prev s

/-- Try to match starting at every position (Python `pattern.search`). -/
def searchFrom (r : Re) (prev : Option Char) (s : List Char) : Bool :=
  reMatch r prev s (fun _ _ => true) ||
  match s with
  | [] => false
  | c :: rest => searchFrom r (some c) rest

/-- Python `pattern.search(s) is not None`. -/
def reSearch (r : Re) (s : PyStr) : Bool := searchFrom r none s

/-- Sequence of case-insensitive literal characters. -/
def rstr (w : String) : Re := w.data.foldr (fun c acc => Re.seq (Re.lit c) acc) Re.eps

/-- Sequence of regular expressions. -/
def rseq (l : List Re) : Re := l.foldr Re.seq Re.eps

/-- Alternation of regular expressions. -/
def ralt (l : List Re) : Re := l.foldr Re.alt Re.fail

/-- The class `\s`, Python whitespace. -/
def rspPlus : Re := Re.seq (Re.cls pyIsSpace) (Re.star pyIsSpace)

/-- The pattern `\s*`. -/
def rspStar : Re := Re.star pyIsSpace

/-- The pattern `.*` (any character except newline). -/
def rdotStar : Re := Re.star (fun c => c != '\n')

/-- Optional trailing `s?`. -/
def roptS : Re := Re.opt (Re.lit 's')

/-! ### The INJECTION_PATTERNS list (34 compiled rules, in source order) -/

def patIgnorePrevious : Re :=
  rseq [rstr "ignore", rspPlus, Re.opt (rseq [rstr "all", rspPlus]),
        ralt [rstr "previous", rstr "above", rstr "prior"]]

def patForgetPrevious : Re :=
  rseq [rstr "forget", rspPlus, Re.opt (rseq [rstr "all", rspPlus]),
        ralt [rstr "previous", rstr "above", rstr "prior"]]

def patDisregardPrevious : Re :=
  rseq [rstr "disregard", rspPlus, Re.opt (rseq [rstr "all", rspPlus]),
        ralt [rstr "previous", rstr "above", rstr "prior"]]

def patNewInstructions : Re :=
  rseq [rstr "new", rspPlus, rstr "instruction", roptS, Re.lit ':']

def patSystemColon : Re := rseq [rstr "system", rspStar, Re.lit ':']

def patAssistantColon : Re := rseq [rstr "assistant", rspStar, Re.lit ':']

def patUserColon : Re := rseq [rstr "user", rspStar, Re.lit ':']

def patInst : Re := rstr "[inst]"

def patInstClose : Re := rstr "[/inst]"

def patImStart : Re := rstr "<|im_start|>"

def patImEnd : Re := rstr "<|im_end|>"

def patHashes : Re :=
  rseq [rstr "###", rspStar,
        ralt [rstr "instruction", rstr "system", rstr "human", rstr "assistant"]]

def patYouAreNow : Re := rseq [rstr "you", rspPlus, rstr "are", rspPlus, rstr "now"]

def patPretend : Re :=
  rseq [rstr "pretend", rspPlus,
        ralt [rseq [rstr "to", rspPlus, rstr "be"],
              rseq [rstr "you", rspPlus, rstr "are"]]]

def patRoleplay : Re := rseq [rstr "roleplay", rspPlus, rstr "as"]

def patActAsIf : Re := rseq [rstr "act", rspPlus, rstr "as", rspPlus, rstr "if"]

def patOverrideInstructions : Re :=
  rseq [rstr "override", rspPlus, Re.opt (rseq [rstr "your", rspPlus]),
        rstr "instruction", roptS]

def patBypassSafety : Re :=
  rseq [rstr "bypass", rspPlus, Re.opt (rseq [rstr "your", rspPlus]), rstr "safety"]

def patJailbreak : Re := rstr "jailbreak"

def patDanMode : Re := rseq [rstr "dan", rspPlus, rstr "mode"]

def patWhatIsYourPrompt : Re :=
  rseq [rstr "what", rspPlus, ralt [rstr "is", rstr "was", rstr "are"], rspPlus,
        rstr "your", rspPlus, Re.opt (rseq [rstr "system", rspPlus]), rstr "prompt"]

def patRevealPrompt : Re :=
  rseq [rstr "reveal", rspPlus, ralt [rstr "your", rstr "the"], rspPlus,
        Re.opt (rseq [rstr "system", rspPlus]),
        ralt [rstr "prompt", rstr "instructions"]]

def patRepeatPrompt : Re :=
  rseq [rstr "repeat", rspPlus, ralt [rstr "your", rstr "the"], rspPlus,
        Re.opt (rseq [rstr "system", rspPlus]),
        ralt [rstr "prompt", rstr "instructions"]]

def patTranslateAbove : Re := rseq [rstr "translate", rspPlus, rstr "the", rspPlus, rstr "above"]

def patOutputInitial : Re :=
  rseq [rstr "output", rspPlus, ralt [rstr "your", rstr "the"], rspPlus, rstr "initial"]

def patBase64Decode : Re :=
  rseq [Re.bnd, rstr "base64", Re.bnd, rdotStar, Re.bnd, rstr "decode", Re.bnd]

def patEval : Re := rseq [rstr "eval", rspStar, Re.lit '(']

def patExec : Re := rseq [rstr "exec", rspStar, Re.lit '(']

def patStopFollowing : Re :=
  rseq [ralt [rstr "stop", rstr "avoid", rstr "cease"], rspPlus,
        rstr "following", rspPlus,
        ralt [rstr "your", rstr "the", rstr "current", rstr "previous"], rspPlus,
        ralt [rseq [rstr "instruction", roptS], rseq [rstr "rule", roptS],
              rseq [rstr "polic", ralt [rstr "y", rstr "ies"]], rstr "safety",
              rseq [rstr "guardrail", roptS]]]

def patPrioritizeOver : Re :=
  rseq [ralt [rseq [rstr "prioriti",
                    Re.cls (fun c => asciiLower c == 's' || asciiLower c == 'z'),
                    Re.lit 'e'],
              rstr "follow"], rspPlus,
        ralt [rstr "these", rstr "new", rstr "my"], rspPlus,
        ralt [rseq [rstr "instruction", roptS], rseq [rstr "rule", roptS],
              rstr "guidance", rseq [rstr "directive", roptS]], rspPlus,
        ralt [rstr "over", rseq [rstr "instead", rspPlus, rstr "of"]]]

def patSharePrompt : Re :=
  rseq [ralt [rstr "share", rstr "reveal", rstr "disclose", rstr "output",
              rstr "print", rstr "dump", rstr "expose"], rspPlus,
        Re.opt (ralt [rstr "your", rstr "the"]), rspStar,
        Re.opt (ralt [rstr "internal", rstr "hidden", rstr "system",
                      rstr "developer", rstr "base", rstr "initial"]), rspStar,
        ralt [rstr "prompt", rseq [rstr "instruction", roptS],
              rseq [rstr "directive", roptS], rseq [rstr "rule", roptS],
              rstr "guidance"]]

def patInitializedWith : Re := rseq [rstr "initialized", rspPlus, rstr "with"]

def patOperatingRules : Re := rseq [rstr "operating", rspPlus, rstr "rules"]

def patAlwaysSaySeverity : Re :=
  rseq [ralt [rstr "always", rstr "must", rstr "regardless"], rspPlus,
        ralt [rstr "say", rstr "classify", rstr "output"], rdotStar,
        ralt [rstr "high", rstr "medium", rstr "low"], rspStar,
        Re.opt (rstr "severity")]

/-- The `INJECTION_PATTERNS` rule list, compiled once with `re.IGNORECASE`. -/
def INJECTION_PATTERNS : List Re :=
  [patIgnorePrevious, patForgetPrevious, patDisregardPrevious,
   patNewInstructions, patSystemColon, patAssistantColon, patUserColon,
   patInst, patInstClose, patImStart, patImEnd, patHashes, patYouAreNow,
   patPretend, patRoleplay, patActAsIf, patOverrideInstructions,
   patBypassSafety, patJailbreak, patDanMode, patWhatIsYourPrompt,
   patRevealPrompt, patRepeatPrompt, patTranslateAbove, patOutputInitial,
   patBase64Decode, patEval, patExec, patStopFollowing, patPrioritizeOver,
   patSharePrompt, patInitializedWith, patOperatingRules, patAlwaysSaySeverity]

/-- `InputValidator._check_injection_patterns`: every rule runs against both
the literal text and its leetspeak-folded variant. -/
def check_injection_patterns (text : PyStr) : Bool :=
  let leet_normalized := normalize_leetspeak text
  INJECTION_PATTERNS.any (fun p => reSearch p text || reSearch p leet_normalized)

/-! ## Override-intent heuristic and base64 payload decoding -/

/-- The `OVERRIDE_VERBS` word set. -/
def OVERRIDE_VERBS : List PyStr :=
  ["ignore".data, "forget".data, "disregard".data, "override".data, "bypass".data,
   "disable".data, "stop".data, "prioritize".data, "prioritise".data,
   "replace".data, "reveal".data, "disclose".data, "share".data, "print".data,
   "dump".data, "show".data, "output".data, "expose".data]

/-- The `CONTROL_TARGETS` word set. -/
def CONTROL_TARGETS : List PyStr :=
  ["instruction".data, "instructions".data, "prompt".data, "system".data,
   "developer".data, "policy".data, "policies".data, "rule".data, "rules".data,
   "safety".data, "guardrail".data, "guardrails".data, "directive".data,
   "directives".data, "guidance".data, "hidden".data, "internal".data]

/-- Lower-case ASCII letter test, the class `[a-z]`. -/
def isLowerAZ (c : Char) : Bool := 'a' ≤ c ∧ c ≤ 'z'

/-- `InputValidator._check_instruction_override_intent`: tokenize the
lower-cased, leet-folded text into `[a-z]+` runs and look for an override
verb together with a control-target noun, or initialization-probing pairs. -/
def check_instruction_override_intent (text : PyStr) : Bool :=
  let normalized := normalize_leetspeak (pyLower text)
  let tokens := runsBy isLowerAZ normalized
  if tokens.isEmpty then false
  else
    let has_override_verb := tokens.any (fun t => OVERRIDE_VERBS.contains t)
    let has_control_target := tokens.any (fun t => CONTROL_TARGETS.contains t)
    if has_override_verb && has_control_target then true
    else if (tokens.contains "initialized".data || tokens.contains "initialised".data) &&
            (tokens.contains "instructions".data || tokens.contains "prompt".data ||
             tokens.contains "rules".data || tokens.contains "directives".data) then
      true
    else false

/-- The base64 alphabet class `[A-Za-z0-9+/]`. -/
def isB64Char (c : Char) : Bool :=
  ('A' ≤ c ∧ c ≤ 'Z') ∨ ('a' ≤ c ∧ c ≤ 'z') ∨ ('0' ≤ c ∧ c ≤ '9') ∨ c = '+' ∨ c = '/'

/-- One scanning step of `re.findall(r'[A-Za-z0-9+/]{20,}={0,2}', text)`:
collect maximal alphabet runs of length at least 20, each extended greedily by
up to two `=` padding characters; `fuel` bounds the consumed characters. -/
def b64ScanAux (fuel : Nat) (cur : PyStr) (s : PyStr) : List PyStr :=
  match fuel with
  | 0 => if cur.length ≥ 20 then [cur.reverse] else []
  | fuel + 1 =>
    match s with
    | [] => if cur.length ≥ 20 then [cur.reverse] else []
    | c :: rest =>
      if isB64Char c then b64ScanAux fuel (c :: cur) rest
      else if cur.length ≥ 20 then
        let pads := ((c :: rest).takeWhile (fun x => x = '=')).take 2
        (cur.reverse ++ pads) :: b64ScanAux fuel [] ((c :: rest).drop pads.length)
      else b64ScanAux fuel [] rest

/-- The candidate list of `b64_pattern.findall(text)`. -/
def b64Candidates (s : PyStr) : List PyStr := b64ScanAux (s.length + 1) [] s

/-- Value of one base64 alphabet character. -/
def b64Val (c : Char) : Nat :=
  if 'A' ≤ c ∧ c ≤ 'Z' then c.toNat - 65
  else if 'a' ≤ c ∧ c ≤ 'z' then c.toNat - 97 + 26
  else if '0' ≤ c ∧ c ≤ '9' then c.toNat - 48 + 52
  else if c = '+' then 62
  else 63

/-- Decode one four-character base64 group into one to three bytes; `none` on
malformed padding (`binascii.Error` in Python). -/
def b64Quad (a b c d : Char) (last : Bool) : Option (List Nat) :=
  if a = '=' ∨ b = '=' then none
  else
    let va := b64Val a
    let vb := b64Val b
    if c = '=' then
      if d = '=' ∧ last then some [(va * 4 + vb / 16) % 256] else none
    else if d = '=' then
      if last then
        some [(va * 4 + b64Val b / 16) % 256, (vb * 16 + b64Val c / 4) % 256]
      else none
    else
      some [(va * 4 + vb / 16) % 256, (vb * 16 + b64Val c / 4) % 256,
            (b64Val c * 64 + b64Val d) % 256]

/-- Strict base64 decoding of a candidate (`base64.b64decode`); `none` models
the exceptions that the caller swallows. -/
def b64DecodeOpt : PyStr → Option (List Nat)
  | [] => some []
  | a :: b :: c :: d :: rest => do
    let grp ← b64Quad a b c d rest.isEmpty
    let tail ← b64DecodeOpt rest
    pure (grp ++ tail)
  | _ => none

/-- UTF-8 decoding with invalid bytes skipped (Python `bytes.decode('utf-8',
errors='ignore')`); `fuel` bounds the consumed bytes. -/
def utf8DecodeIgnore (fuel : Nat) (bs : List Nat) : PyStr :=
  match fuel with
  | 0 => []
  | fuel + 1 =>
    match bs with
    | [] => []
    | b :: rest =>
      if b < 0x80 then Char.ofNat b :: utf8DecodeIgnore fuel rest
      else if 0xc2 ≤ b ∧ b ≤ 0xdf then
        match rest with
        | b2 :: rest2 =>
          if 0x80 ≤ b2 ∧ b2 ≤ 0xbf then
            Char.ofNat ((b - 0xc0) * 64 + (b2 - 0x80)) :: utf8DecodeIgnore fuel rest2
          else utf8DecodeIgnore fuel rest
        | [] => []
      else if 0xe0 ≤ b ∧ b ≤ 0xef then
        match rest with
        | b2 :: b3 :: rest2 =>
          if 0x80 ≤ b2 ∧ b2 ≤ 0xbf ∧ 0x80 ≤ b3 ∧ b3 ≤ 0xbf then
            let n := (b - 0xe0) * 4096 + (b2 - 0x80) * 64 + (b3 - 0x80)
            if 0x800 ≤ n ∧ ¬(0xd800 ≤ n ∧ n ≤ 0xdfff) then
              Char.ofNat n :: utf8DecodeIgnore fuel rest2
            else utf8DecodeIgnore fuel rest
          else utf8DecodeIgnore fuel rest
        | _ => []
      else if 0xf0 ≤ b ∧ b ≤ 0xf4 then
        match rest with
        | b2 :: b3 :: b4 :: rest2 =>
          if 0x80 ≤ b2 ∧ b2 ≤ 0xbf ∧ 0x80 ≤ b3 ∧ b3 ≤ 0xbf ∧ 0x80 ≤ b4 ∧ b4 ≤ 0xbf then
            let n := (b - 0xf0) * 262144 + (b2 - 0x80) * 4096 + (b3 - 0x80) * 64 + (b4 - 0x80)
            if 0x10000 ≤ n ∧ n ≤ 0x10ffff then
              Char.ofNat n :: utf8DecodeIgnore fuel rest2
            else utf8DecodeIgnore fuel rest
          else utf8DecodeIgnore fuel rest
        | _ => []
      else utf8DecodeIgnore fuel rest

/-- `InputValidator._check_base64_injection`: decode each base64-looking run
of at least 20 characters and re-run both detection passes on the result;
decode failures are skipped. -/
def check_base64_injection (text : PyStr) : Bool :=
  (b64Candidates text).any (fun m =>
    match b64DecodeOpt m with
    | none => false
    | some bytes =>
      let decoded := pyLower (utf8DecodeIgnore (bytes.length + 1) bytes)
      check_injection_patterns decoded || check_instruction_override_intent decoded)

/-! ## InputValidator.validate_text and validate_symptoms -/

/-- Truncation warning text, `f"Text truncated from {a} to {b} characters"`. -/
def truncationWarning (a b : Nat) : String :=
  "Text truncated from " ++ toString a ++ " to " ++ toString b ++ " characters"

/-- `InputValidator.validate_text`.  `text = none` models a `None` argument;
`max_length = none` models the `None` default, and a `some 0` is falsy in
Python so it also selects `MAX_TEXT_LENGTH`. -/
def validate_text (text : Option PyStr) (max_length : Option Nat) : ValidationResult :=
  match text with
  | none => ⟨false, [], ["Text input is required"], []⟩
  | some t =>
    let sanitized := pyStrip t
    if sanitized.isEmpty then ⟨false, [], ["Text cannot be empty"], []⟩
    else
      let max_len := match max_length with
        | some m => if m = 0 then MAX_TEXT_LENGTH else m
        | none => MAX_TEXT_LENGTH
      let warnings : List String :=
        if sanitized.length > max_len then [truncationWarning sanitized.length max_len] else []
      let sanitized := if sanitized.length > max_len then sanitized.take max_len else sanitized
      let sanitized := sanitize_unicode sanitized
      if check_injection_patterns sanitized then
        ⟨false, [], ["Input contains potentially malicious patterns"], []⟩
      else if check_instruction_override_intent sanitized then
        ⟨false, [], ["Input contains potentially malicious patterns"], []⟩
      else if check_base64_injection sanitized then
        ⟨false, [], ["Input contains potentially malicious patterns"], []⟩
      else
        let sanitized :=
          if containsSub "<<<".data sanitized || containsSub ">>>".data sanitized then
            pyReplace (pyReplace sanitized "<<<".data []) ">>>".data []
          else sanitized
        ⟨true, sanitized, [], warnings⟩

/-- `InputValidator.validate_symptoms`: delegate with the tighter bound, then
add a non-fatal warning for fewer than two words. -/
def validate_symptoms (symptoms : Option PyStr) : ValidationResult :=
  let result := validate_text symptoms (some MAX_SYMPTOM_LENGTH)
  if !result.is_valid then result
  else if (pySplitWs result.sanitized_value).length < 2 then
    ⟨result.is_valid, result.sanitized_value, result.errors,
     result.warnings ++ ["Very short symptom description may yield less accurate results"]⟩
  else result

/-! ## PromptProtector output guard -/

/-- The delimiter separating system content from user content. -/
def DELIMITER : PyStr := "<<<USER_INPUT>>>".data

/-- The pattern `system\s+prompt`. -/
def opatSystemPrompt : Re := rseq [rstr "system", rspPlus, rstr "prompt"]

/-- The pattern `developer\s+instructions?`. -/
def opatDeveloperInstructions : Re :=
  rseq [rstr "developer", rspPlus, rstr "instruction", roptS]

/-- The pattern `ignore\s+(all\s+)?(previous|above|prior)` rechecked on output. -/
def opatIgnorePrevious : Re := patIgnorePrevious

/-- The pattern `\{?\s*"role"\s*:\s*"(system|assistant|developer)"`. -/
def opatRoleLabel : Re :=
  rseq [Re.opt (Re.lit (Char.ofNat 123)), rspStar, rstr "\"role\"", rspStar,
        Re.lit ':', rspStar, Re.lit '"',
        ralt [rstr "system", rstr "assistant", rstr "developer"], Re.lit '"']

/-- The pattern `you\s+are\s+now` rechecked on output. -/
def opatYouAreNow : Re := patYouAreNow

/-- The `suspicious_output_patterns` list of `validate_output`. -/
def SUSPICIOUS_OUTPUT_PATTERNS : List Re :=
  [opatSystemPrompt, opatDeveloperInstructions, opatIgnorePrevious,
   opatRoleLabel, opatYouAreNow]

/-- `PromptProtector.validate_output`: the returned pair is
`(accepted, cleaned_text)`. -/
def validate_output (output : PyStr) : Bool × PyStr :=
  if output.isEmpty || (pyStrip output).isEmpty then (false, "Empty response".data)
  else
    let output := if output.length > 5000 then output.take 5000 else output
    let cleaned := pyStrip output
    if containsSub DELIMITER cleaned then (false, [])
    else if SUSPICIOUS_OUTPUT_PATTERNS.any (fun p => reSearch p cleaned) then (false, [])
    else (true, cleaned)

/-! ## RateLimiter

The in-process fallback path of `RateLimiter.check_rate_limit` (no Redis
connection), with Python dicts as insertion-ordered association lists and
timestamps as integers. -/

/-- Rate-limiter configuration: the constructor arguments plus the
per-instance `MAX_TRACKED_CLIENTS` / `SWEEP_INTERVAL` attributes (class
defaults 10000 and 100; the test suite overrides them per instance). -/
structure RateLimiterCfg where
  requests_per_minute : Nat
  requests_per_hour : Nat
  MAX_TRACKED_CLIENTS : Nat
  SWEEP_INTERVAL : Nat

/-- `RateLimiter(requests_per_minute, requests_per_hour)` with the class-level
attribute defaults. -/
def mkRateLimiter (rpm rph : Nat) : RateLimiterCfg := ⟨rpm, rph, 10000, 100⟩

/-- A client bucket map: Python `defaultdict(list)` keyed by client id. -/
abbrev BucketMap := List (PyStr × List Int)

/-- Mutable in-memory state of a `RateLimiter` instance. -/
structure RateLimiterState where
  sweep_counter : Nat
  minute_buckets : BucketMap
  hour_buckets : BucketMap
deriving DecidableEq, Repr

/-- Fresh limiter state (`__init__`). -/
def initState : RateLimiterState := ⟨0, [], []⟩

/-- Read a bucket (`defaultdict` read: missing keys give `[]`). -/
def dictGet (d : BucketMap) (k : PyStr) : List Int := (d.lookup k).getD []

/-- Write a bucket, preserving dict insertion order. -/
def dictSet (d : BucketMap) (k : PyStr) (v : List Int) : BucketMap :=
  if d.any (fun e => e.1 == k) then d.map (fun e => if e.1 == k then (k, v) else e)
  else d ++ [(k, v)]

/-- Remove a key (`del d[k]` / `d.pop(k, None)`). -/
def dictErase (d : BucketMap) (k : PyStr) : BucketMap := d.filter (fun e => e.1 != k)

/-- An HTTP request as the limiter sees it: a header map and the transport
peer address (`request.remote_addr`, `None` when absent). -/
structure Request where
  headers : List (PyStr × PyStr)
  remote_addr : Option PyStr

/-- `request.headers.get(k, '')`. -/
def headersGet (hs : List (PyStr × PyStr)) (k : PyStr) : PyStr := (hs.lookup k).getD []

/-- ASCII digit test (`str.isdigit` on the ASCII strings this code handles). -/
def pyIsDigitStr (p : PyStr) : Bool := !p.isEmpty && p.all (fun c => '0' ≤ c ∧ c ≤ '9')

/-- Numeric value of a digit string (`int(p)` for the strings that pass
`pyIsDigitStr`). -/
def natOfDigits (p : PyStr) : Nat := p.foldl (fun n c => n * 10 + (c.toNat - 48)) 0

/-- `RateLimiter._is_valid_ip`: IPv4 format/range validation rejecting
loopback, RFC1918 private ranges and `0.0.0.0`, plus the basic IPv6 check. -/
def is_valid_ip (ip : PyStr) : Bool :=
  let parts := pySplitOn '.' ip
  if parts.length = 4 then
    if !(parts.all (fun p => pyIsDigitStr p && natOfDigits p ≤ 255)) then false
    else
      let first_octet := natOfDigits (parts.getD 0 [])
      if first_octet = 127 then false
      else if first_octet = 10 then false
      else if first_octet = 172 ∧ 16 ≤ natOfDigits (parts.getD 1 []) ∧
              natOfDigits (parts.getD 1 []) ≤ 31 then false
      else if first_octet = 192 ∧ natOfDigits (parts.getD 1 []) = 168 then false
      else if ip = "0.0.0.0".data then false
      else true
  else if ip.contains ':' then
    if ip = "::1".data then false
    else ip.length ≤ 45 && ip.all (fun c => "0123456789abcdefABCDEF:".data.contains c)
  else false

/-- `RateLimiter._get_client_id`: scan `X-Forwarded-For` entries from the
right for the first valid IP, else fall back to `remote_addr or 'unknown'`. -/
def get_client_id (req : Request) : PyStr :=
  let fallback := match req.remote_addr with
    | some a => if a.isEmpty then "unknown".data else a
    | none => "unknown".data
  let forwarded := headersGet req.headers "X-Forwarded-For".data
  if forwarded.isEmpty then fallback
  else
    let ips := (pySplitOn ',' forwarded).map pyStrip
    match ips.reverse.find? (fun ip => is_valid_ip ip) with
    | some ip => ip
    | none => fallback

/-- `RateLimiter._cleanup_old_entries`: keep timestamps inside the window. -/
def cleanup_old_entries (bucket : List Int) (window_seconds now : Int) : List Int :=
  bucket.filter (fun t => decide (t > now - window_seconds))

/-- Python `max(v)` for the nonempty lists this code applies it to. -/
def listMaxI (l : List Int) : Int := l.foldl max (l.headD 0)

/-- `RateLimiter._sweep_stale_clients`: purge clients whose most recent
hour-bucket activity is older than one hour. -/
def sweep_stale_clients (mb hb : BucketMap) (now : Int) : BucketMap × BucketMap :=
  let cutoff := now - 3600
  let stale_keys := (hb.filter (fun e => e.2.isEmpty || decide (listMaxI e.2 < cutoff))).map Prod.fst
  (stale_keys.foldl dictErase mb, stale_keys.foldl dictErase hb)

/-- Sort key used by the S-02 eviction: a client's most recent minute-bucket
timestamp, `0` for an empty bucket
(`self._minute_buckets[k][-1] if self._minute_buckets[k] else 0`). -/
def minuteKey (mb : BucketMap) (k : PyStr) : Int := (dictGet mb k).getLastD 0

/-- The S-02 eviction block of `check_rate_limit`: stable-sort the tracked
client keys by `minuteKey` (Python's `sorted` with a `key` function), take the
overflow prefix, and delete those clients from both bucket maps. -/
def evict_oldest (cap : Nat) (mb hb : BucketMap) : BucketMap × BucketMap :=
  let oldest_keys :=
    (List.insertionSort (fun a b => minuteKey mb a ≤ minuteKey mb b) (mb.map Prod.fst)).take
      (mb.length - cap)
  (oldest_keys.foldl dictErase mb, oldest_keys.foldl dictErase hb)

/-- Error payload returned on a denied request. -/
structure RateLimitError where
  error : String
  message : String
  retry_after : Nat
deriving DecidableEq, Repr

/-- `RateLimiter.check_rate_limit` on the in-memory fallback path (no Redis),
of one request arriving at integer time `now`.  Returns the
`(is_allowed, error_info)` pair and the successor state. -/
def check_rate_limit (cfg : RateLimiterCfg) (st : RateLimiterState) (req : Request)
    (now : Int) : (Bool × Option RateLimitError) × RateLimiterState :=
  let client_id := get_client_id req
  let counter0 := st.sweep_counter + 1
  let swept :=
    if counter0 ≥ cfg.SWEEP_INTERVAL then
      let p := sweep_stale_clients st.minute_buckets st.hour_buckets now
      (0, p.1, p.2)
    else (counter0, st.minute_buckets, st.hour_buckets)
  let counter := swept.1
  let evicted :=
    if swept.2.1.length > cfg.MAX_TRACKED_CLIENTS then
      evict_oldest cfg.MAX_TRACKED_CLIENTS swept.2.1 swept.2.2
    else (swept.2.1, swept.2.2)
  let mcleaned := cleanup_old_entries (dictGet evicted.1 client_id) 60 now
  let mb := dictSet evicted.1 client_id mcleaned
  if mcleaned.length ≥ cfg.requests_per_minute then
    ((false, some ⟨"rate_limit_exceeded",
        "Rate limit exceeded: " ++ toString cfg.requests_per_minute ++
          " requests per minute", 60⟩),
     ⟨counter, mb, evicted.2⟩)
  else
    let hcleaned := cleanup_old_entries (dictGet evicted.2 client_id) 3600 now
    let hb := dictSet evicted.2 client_id hcleaned
    if hcleaned.length ≥ cfg.requests_per_hour then
      ((false, some ⟨"rate_limit_exceeded",
          "Rate limit exceeded: " ++ toString cfg.requests_per_hour ++
            " requests per hour", 3600⟩),
       ⟨counter, mb, hb⟩)
    else
      ((true, none),
       ⟨counter, dictSet mb client_id (mcleaned ++ [now]),
        dictSet hb client_id (hcleaned ++ [now])⟩)

/-! ## General lemmas -/

lemma foldl_and_init (cs : List Char) (c : Char) (b : Bool) :
    cs.foldl (fun acc k => acc && (c != k)) b =
      (b && cs.foldl (fun acc k => acc && (c != k)) true) := by
  induction cs generalizing b with
  | nil => simp
  | cons k ks ih =>
    simp only [List.foldl_cons, Bool.true_and]
    rw [ih, ih (c != k)]
    cases b <;> simp [Bool.and_assoc]

/-- A left fold of one-character strip operations is a single filter with the
conjunction of the per-character tests. -/
lemma foldl_replaceCharEmpty (cs : List Char) (s : PyStr) :
    cs.foldl (fun t c => replaceCharEmpty c t) s =
      s.filter (fun c => cs.foldl (fun b k => b && (c != k)) true) := by
  induction cs generalizing s with
  | nil => simp
  | cons k ks ih =>
    simp only [List.foldl_cons]
    rw [ih, replaceCharEmpty, List.filter_filter]
    apply List.filter_congr
    intro a _
    rw [foldl_and_init ks a (true && (a != k))]
    simp [Bool.and_comm]

/-- A left fold of one-character replacement maps is a single map of the
per-character fold. -/
lemma foldl_replaceCharChar (ps : List (Char × Char)) (s : PyStr) :
    ps.foldl (fun t p => replaceCharChar p.1 p.2 t) s =
      s.map (fun c => ps.foldl (fun x p => if x = p.1 then p.2 else x) c) := by
  induction ps generalizing s with
  | nil => simp
  | cons p ps ih =>
    simp only [List.foldl_cons]
    rw [ih, replaceCharChar, List.map_map]
    rfl

/-- Fused form of `_sanitize_unicode`: filter the dangerous characters, then
map the homoglyph folding. -/
lemma sanitize_unicode_eq (s : PyStr) :
    sanitize_unicode s = (s.filter keepChar).map homoglyphChar := by
  rw [sanitize_unicode, foldl_replaceCharEmpty, foldl_replaceCharChar]
  rfl

/-- The sanitized value never gets longer. -/
lemma sanitize_unicode_length_le (s : PyStr) :
    (sanitize_unicode s).length ≤ s.length := by
  rw [sanitize_unicode_eq, List.length_map]
  exact List.length_filter_le _ _


lemma pyStrip_eq_nil_iff (s : PyStr) : pyStrip s = [] ↔ ∀ c ∈ s, pyIsSpace c := by
  unfold pyStrip pyRStrip pyLStrip
  rw [List.reverse_eq_nil_iff, List.dropWhile_eq_nil_iff]
  constructor
  · intro h c hc
    rcases List.mem_append.mp ((List.takeWhile_append_dropWhile pyIsSpace s) ▸ hc) with h1 | h1
    · exact List.mem_takeWhile_imp h1
    · exact h c (List.mem_reverse.mpr h1)
  · intro h c hc
    exact h c ((List.dropWhile_sublist _).mem (List.mem_reverse.mp hc))

lemma pyStrip_replicate_space (n : Nat) : pyStrip (List.replicate n ' ') = [] :=
  (pyStrip_eq_nil_iff _).mpr fun c hc => by
    rw [List.eq_of_mem_replicate hc]; decide

lemma containsSub_append_right (n l m : PyStr) (h : containsSub n m = true) :
    containsSub n (l ++ m) = true := by
  induction l with
  | nil => simpa using h
  | cons c l ih => simp [containsSub, ih]

lemma replaceSubFuel_nil_length_le (pat : PyStr) :
    ∀ (fuel : Nat) (s : PyStr), (replaceSubFuel pat [] fuel s).length ≤ s.length := by
  intro fuel
  induction fuel with
  | zero => intro s; simp [replaceSubFuel]
  | succ fuel ih =>
    intro s
    match s with
    | [] => simp [replaceSubFuel]
    | c :: rest =>
      rw [replaceSubFuel]
      split
      · have h1 := ih ((c :: rest).drop pat.length)
        have h2 : ((c :: rest).drop pat.length).length ≤ (c :: rest).length := by
          rw [List.length_drop]; exact Nat.sub_le _ _
        simpa using le_trans h1 h2
      · simpa using ih rest

lemma pyReplace_nil_length_le (s pat : PyStr) : (pyReplace s pat []).length ≤ s.length :=
  replaceSubFuel_nil_length_le pat s.length s

/-! ## Claim C8: idempotence of the normalization maps -/

lemma foldl_ite_not_mem (ps : List (Char × Char)) (c : Char)
    (h : c ∉ ps.map Prod.fst) :
    ps.foldl (fun x p => if x = p.1 then p.2 else x) c = c := by
  induction ps with
  | nil => rfl
  | cons p ps ih =>
    simp only [List.map_cons, List.mem_cons, not_or] at h
    simp only [List.foldl_cons, if_neg h.1]
    exact ih h.2

lemma homoglyphChar_not_mem {c : Char} (h : c ∉ HOMOGLYPH_MAP.map Prod.fst) :
    homoglyphChar c = c := foldl_ite_not_mem _ _ h

lemma homoglyphChar_idem (c : Char) : homoglyphChar (homoglyphChar c) = homoglyphChar c := by
  by_cases h : c ∈ HOMOGLYPH_MAP.map Prod.fst
  · fin_cases h <;> decide
  · rw [homoglyphChar_not_mem h, homoglyphChar_not_mem h]

lemma keepChar_homoglyphChar (c : Char) : keepChar (homoglyphChar c) = keepChar c := by
  by_cases h : c ∈ HOMOGLYPH_MAP.map Prod.fst
  · fin_cases h <;> decide
  · rw [homoglyphChar_not_mem h]

lemma lookup_eq_none_of_not_mem (ps : List (Char × Char)) (c : Char)
    (h : c ∉ ps.map Prod.fst) : ps.lookup c = none := by
  induction ps with
  | nil => rfl
  | cons p ps ih =>
    simp only [List.map_cons, List.mem_cons, not_or] at h
    have : (c == p.1) = false := by simp [h.1]
    simp [List.lookup, this, ih h.2]

lemma leetChar_not_mem {c : Char} (h : c ∉ LEETSPEAK_MAP.map Prod.fst) :
    leetChar c = c := by
  rw [leetChar, lookup_eq_none_of_not_mem _ _ h]

lemma leetChar_idem (c : Char) : leetChar (leetChar c) = leetChar c := by
  by_cases h : c ∈ LEETSPEAK_MAP.map Prod.fst
  · fin_cases h <;> decide
  · rw [leetChar_not_mem h, leetChar_not_mem h]

lemma map_map_pointwise (f g h : Char → Char) (hfg : ∀ a, f (g a) = h a) :
    ∀ l : List Char, (l.map g).map f = l.map h := by
  intro l
  induction l with
  | nil => rfl
  | cons a l ih => simp only [List.map_cons, ih, hfg]

lemma filter_of_map (p : Char → Bool) (f : Char → Char) :
    ∀ l : List Char, (l.map f).filter p = (l.filter (fun a => p (f a))).map f := by
  intro l
  induction l with
  | nil => rfl
  | cons a l ih =>
    simp only [List.map_cons, List.filter_cons, ih]
    by_cases h : p (f a) = true
    · simp [h]
    · simp [h]

lemma filter_pointwise (p q : Char → Bool) (hpq : ∀ a, p a = q a) :
    ∀ l : List Char, l.filter p = l.filter q := by
  intro l
  induction l with
  | nil => rfl
  | cons a l ih => simp only [List.filter_cons, hpq, ih]

lemma filter_self_idem (p : Char → Bool) :
    ∀ l : List Char, (l.filter p).filter p = l.filter p := by
  intro l
  induction l with
  | nil => rfl
  | cons a l ih =>
    simp only [List.filter_cons]
    by_cases h : p a = true
    · simp [h, List.filter_cons, ih]
    · simp [h, ih]

/-- Claim C8: the stored-value normalization (zero-width stripping plus
homoglyph folding) and the detection-only leetspeak folding are both
idempotent. -/
theorem normalize_idempotent :
    (∀ s : PyStr, sanitize_unicode (sanitize_unicode s) = sanitize_unicode s) ∧
    (∀ s : PyStr, normalize_leetspeak (normalize_leetspeak s) = normalize_leetspeak s) := by
  constructor
  · intro s
    simp only [sanitize_unicode_eq]
    rw [filter_of_map keepChar homoglyphChar,
        filter_pointwise (fun a => keepChar (homoglyphChar a)) keepChar
          keepChar_homoglyphChar, filter_self_idem]
    exact map_map_pointwise homoglyphChar homoglyphChar homoglyphChar
      homoglyphChar_idem _
  · intro s
    simp only [normalize_leetspeak]
    exact map_map_pointwise leetChar leetChar leetChar leetChar_idem s

/-! ## Claim C3: the language alias table is never consulted -/

/-- Claim C3: the source defines `LANGUAGE_ALIASES` mapping `ak`, `akan` and
`tw` to the canonical `twi`, but `validate_language` never consults it: `tw`
and `akan` are rejected as unsupported, and `ak` is returned unresolved. -/
theorem validate_language_alias_table_unused :
    ("tw".data, "twi".data) ∈ LANGUAGE_ALIASES ∧
    ("akan".data, "twi".data) ∈ LANGUAGE_ALIASES ∧
    (validate_language (some "tw".data)).is_valid = false ∧
    (validate_language (some "akan".data)).is_valid = false ∧
    validate_language (some "ak".data) = ⟨true, "ak".data, [], []⟩ ∧
    validate_language (some "tw".data) =
      ⟨false, [],
       ["Unsupported language code: tw. Allowed: ak, am, ar, ee, en, ewe, fr, ga, ha, ig, om, pt, so, sw, ti, twi, xh, yo, zu"],
       []⟩ := by decide

/-! ## Claim C10: a zero-width-only input is reported valid with empty value -/

/-- Claim C10: the nonempty input consisting of the single zero-width space
U+200B passes the emptiness check (run on the trimmed raw text), is then
erased by Unicode sanitization, and `validate_text` reports it valid with an
empty sanitized value. -/
theorem validate_text_zero_width_only_valid_empty :
    ([Char.ofNat 0x200b] : PyStr) ≠ [] ∧
    pyStrip [Char.ofNat 0x200b] ≠ [] ∧
    validate_text (some [Char.ofNat 0x200b]) none = ⟨true, [], [], []⟩ := by decide

/-! ## Claim C7: invalid results carry an empty value and a nonempty error list -/

lemma validate_text_invalid_shape (t : Option PyStr) (m : Option Nat)
    (h : (validate_text t m).is_valid = false) :
    (validate_text t m).sanitized_value = [] ∧ (validate_text t m).errors ≠ [] := by
  match t with
  | none => exact ⟨rfl, by simp [validate_text]⟩
  | some x =>
    simp only [validate_text] at h ⊢
    split_ifs at h ⊢ <;> simp_all

/-- Claim C7: whenever `validate_text`, `validate_symptoms` or
`validate_language` reports `is_valid = false`, the sanitized value is the
empty string and the error list is nonempty. -/
theorem invalid_results_empty_value_nonempty_errors :
    (∀ (t : Option PyStr) (m : Option Nat), (validate_text t m).is_valid = false →
      (validate_text t m).sanitized_value = [] ∧ (validate_text t m).errors ≠ []) ∧
    (∀ s : Option PyStr, (validate_symptoms s).is_valid = false →
      (validate_symptoms s).sanitized_value = [] ∧ (validate_symptoms s).errors ≠ []) ∧
    (∀ l : Option PyStr, (validate_language l).is_valid = false →
      (validate_language l).sanitized_value = [] ∧ (validate_language l).errors ≠ []) := by
  refine ⟨validate_text_invalid_shape, ?_, ?_⟩
  · intro s h
    unfold validate_symptoms at h ⊢
    by_cases hv : (validate_text s (some MAX_SYMPTOM_LENGTH)).is_valid = true
    · simp only [hv, Bool.not_true] at h ⊢
      split_ifs at h ⊢ <;> simp_all
    · rw [Bool.not_eq_true] at hv
      simp only [hv, Bool.not_false, if_pos] at h ⊢
      exact validate_text_invalid_shape s (some MAX_SYMPTOM_LENGTH) hv
  · intro l h
    match l with
    | none => exact ⟨rfl, by simp [validate_language]⟩
    | some x =>
      simp only [validate_language] at h ⊢
      split_ifs at h ⊢ <;> simp_all

/-- Claim C7 witness: the invariant instantiated at concrete rejected inputs. -/
theorem invalid_results_empty_value_nonempty_errors_witness :
    ((validate_text none none).sanitized_value = [] ∧ (validate_text none none).errors ≠ []) ∧
    ((validate_symptoms none).sanitized_value = [] ∧ (validate_symptoms none).errors ≠ []) ∧
    ((validate_language (some "zz".data)).sanitized_value = [] ∧
      (validate_language (some "zz".data)).errors ≠ []) :=
  ⟨invalid_results_empty_value_nonempty_errors.1 none none (by decide),
   invalid_results_empty_value_nonempty_errors.2.1 none (by decide),
   invalid_results_empty_value_nonempty_errors.2.2 (some "zz".data) (by decide)⟩

/-! ## Claim C1: rejected output carries empty cleaned text, except on the
empty-output branch -/

/-- Claim C1 counterexample: on the empty/whitespace-only branch,
`validate_output` returns `accepted = false` with `cleaned_text` equal to the
constant `"Empty response"`, not the empty string. -/
theorem validate_output_empty_branch_cleaned_nonempty :
    validate_output [] = (false, "Empty response".data) ∧
    validate_output "   ".data = (false, "Empty response".data) ∧
    ("Empty response".data : PyStr) ≠ [] := by decide

/-- Claim C1 (amended): for output that is not empty/whitespace-only (the
delimiter-leak and leakage-pattern branches), rejection always carries an
empty `cleaned_text`. -/
theorem validate_output_rejected_cleaned_empty :
    ∀ out : PyStr, pyStrip out ≠ [] → (validate_output out).1 = false →
      (validate_output out).2 = [] := by
  intro out hne h
  have h0 : out ≠ [] := fun e => hne (by rw [e]; rfl)
  unfold validate_output at h ⊢
  have hc : (out.isEmpty || (pyStrip out).isEmpty) = false := by
    simp [List.isEmpty_iff, h0, hne]
  rw [hc] at h ⊢
  simp only [Bool.false_eq_true, if_false] at h ⊢
  split_ifs at h ⊢ <;> simp_all

/-- Claim C1 witness: a delimiter-leaking output is rejected with empty
cleaned text. -/
theorem validate_output_rejected_cleaned_empty_witness :
    (validate_output "x <<<USER_INPUT>>> y".data).2 = [] :=
  validate_output_rejected_cleaned_empty "x <<<USER_INPUT>>> y".data
    (by decide) (by decide)

/-! ## Claim C2: delimiter leakage is rejected, up to the truncation cap -/

/-- Claim C2 counterexample: when the delimiter sits entirely beyond the
5000-character cap, truncation removes it and the output is accepted, so an
output containing the literal delimiter is not always rejected. -/
theorem validate_output_truncation_drops_delimiter :
    containsSub DELIMITER (List.replicate 5000 ' ' ++ DELIMITER) = true ∧
    validate_output (List.replicate 5000 ' ' ++ DELIMITER) = (true, []) := by
  constructor
  · exact containsSub_append_right _ _ _ (by decide)
  · have hstrip : pyStrip (List.replicate 5000 ' ') = [] := pyStrip_replicate_space 5000
    have hmem : '<' ∈ List.replicate 5000 ' ' ++ DELIMITER :=
      List.mem_append.mpr (Or.inr (by decide))
    have hne : pyStrip (List.replicate 5000 ' ' ++ DELIMITER) ≠ [] := by
      rw [Ne, pyStrip_eq_nil_iff]
      intro hall
      exact absurd (hall '<' hmem) (by decide)
    have hdlen : DELIMITER.length = 16 := by decide
    have hlen : (List.replicate 5000 ' ' ++ DELIMITER).length > 5000 := by
      rw [List.length_append, List.length_replicate, hdlen]
      omega
    have htake : (List.replicate 5000 ' ' ++ DELIMITER).take 5000 = List.replicate 5000 ' ' :=
      List.take_left' (by rw [List.length_replicate])
    have hempty : (List.replicate 5000 ' ' ++ DELIMITER).isEmpty = false := by
      rw [List.isEmpty_eq_false_iff_exists_mem]
      exact ⟨'<', hmem⟩
    have hsne : (pyStrip (List.replicate 5000 ' ' ++ DELIMITER)).isEmpty = false := by
      rcases hB : (pyStrip (List.replicate 5000 ' ' ++ DELIMITER)).isEmpty
      · rfl
      · exact absurd (List.isEmpty_iff.mp hB) hne
    have hcond : ¬((List.replicate 5000 ' ' ++ DELIMITER).isEmpty ||
        (pyStrip (List.replicate 5000 ' ' ++ DELIMITER)).isEmpty) = true := by
      rw [hempty, hsne]
      decide
    simp only [validate_output]
    rw [if_neg hcond, if_pos hlen, htake, hstrip]
    decide

/-- Claim C2 (amended): whenever the delimiter survives the 5000-character
truncation and trimming, the output is rejected outright with empty cleaned
text, never strip-and-accepted. -/
theorem validate_output_delimiter_in_cleaned_rejected :
    ∀ out : PyStr,
      containsSub DELIMITER (pyStrip (if out.length > 5000 then out.take 5000 else out)) = true →
      validate_output out = (false, []) := by
  intro out h
  have h1 : pyStrip (if out.length > 5000 then out.take 5000 else out) ≠ [] := by
    intro e
    rw [e] at h
    exact absurd h (by decide)
  have h3 : pyStrip out ≠ [] := by
    rw [Ne, pyStrip_eq_nil_iff]
    intro hall
    apply h1
    rw [pyStrip_eq_nil_iff]
    intro c hc
    apply hall
    by_cases hl : out.length > 5000
    · rw [if_pos hl] at hc
      exact List.take_subset _ _ hc
    · rw [if_neg hl] at hc
      exact hc
  have h4 : out ≠ [] := fun e => h3 (by rw [e]; rfl)
  have he1 : out.isEmpty = false := by
    rcases hB : out.isEmpty
    · rfl
    · exact absurd (List.isEmpty_iff.mp hB) h4
  have he2 : (pyStrip out).isEmpty = false := by
    rcases hB : (pyStrip out).isEmpty
    · rfl
    · exact absurd (List.isEmpty_iff.mp hB) h3
  unfold validate_output
  rw [if_neg (by rw [he1, he2]; decide)]
  simp only [h, if_true]

/-- Claim C2 witness: a short delimiter-leaking output is rejected as
`(false, "")`. -/
theorem validate_output_delimiter_in_cleaned_rejected_witness :
    validate_output "abc<<<USER_INPUT>>>def".data = (false, []) :=
  validate_output_delimiter_in_cleaned_rejected "abc<<<USER_INPUT>>>def".data (by decide)

/-! ## Claim C4: truncation to the length bound, before the pattern checks -/

/-- Claim C4 counterexample: a trimmed input longer than `max_length` whose
truncation contains a zero-width character is reported valid with the
truncation warning, but its sanitized value is strictly shorter than
`max_length`, because Unicode stripping runs after the clamp. -/
theorem validate_text_truncated_value_shorter_than_bound :
    (pyStrip (Char.ofNat 0x200b :: "abcde".data)).length = 6 ∧
    validate_text (some (Char.ofNat 0x200b :: "abcde".data)) (some 5) =
      ⟨true, "abcd".data, [], ["Text truncated from 6 to 5 characters"]⟩ ∧
    ("abcd".data).length ≠ 5 := by decide

/-- Claim C4 (amended): for trimmed input longer than `max_length` on which
the truncated, normalized text triggers no injection check, the result is
valid, carries exactly the truncation warning, and its sanitized value has
length at most `max_length` (exactly `max_length` unless Unicode stripping or
delimiter stripping removed characters after the clamp). -/
theorem validate_text_truncates_before_checks :
    ∀ (t : PyStr) (m : Nat), m ≠ 0 → pyStrip t ≠ [] → (pyStrip t).length > m →
    check_injection_patterns (sanitize_unicode ((pyStrip t).take m)) = false →
    check_instruction_override_intent (sanitize_unicode ((pyStrip t).take m)) = false →
    check_base64_injection (sanitize_unicode ((pyStrip t).take m)) = false →
    (validate_text (some t) (some m)).is_valid = true ∧
    (validate_text (some t) (some m)).warnings = [truncationWarning (pyStrip t).length m] ∧
    (validate_text (some t) (some m)).sanitized_value.length ≤ m := by
  intro t m hm hne hlen hinj hovr hb64
  have hemp : (pyStrip t).isEmpty = false := by
    rcases hB : (pyStrip t).isEmpty
    · rfl
    · exact absurd (List.isEmpty_iff.mp hB) hne
  have htklen : ((pyStrip t).take m).length = m := by
    rw [List.length_take]
    omega
  have hslen : (sanitize_unicode ((pyStrip t).take m)).length ≤ m := by
    have hs := sanitize_unicode_length_le ((pyStrip t).take m)
    omega
  simp only [validate_text]
  rw [if_neg (show ¬((pyStrip t).isEmpty = true) from by rw [hemp]; decide),
      if_neg hm, if_pos hlen, if_pos hlen, hinj, hovr, hb64]
  have hff : ¬(false = true) := by decide
  rw [if_neg hff, if_neg hff, if_neg hff]
  refine ⟨rfl, rfl, ?_⟩
  dsimp only
  by_cases hd : (containsSub "<<<".data (sanitize_unicode ((pyStrip t).take m)) ||
      containsSub ">>>".data (sanitize_unicode ((pyStrip t).take m))) = true
  · rw [if_pos hd]
    calc (pyReplace (pyReplace (sanitize_unicode ((pyStrip t).take m)) "<<<".data [])
            ">>>".data []).length
        ≤ (pyReplace (sanitize_unicode ((pyStrip t).take m)) "<<<".data []).length :=
          pyReplace_nil_length_le _ _
      _ ≤ (sanitize_unicode ((pyStrip t).take m)).length := pyReplace_nil_length_le _ _
      _ ≤ m := hslen
  · rw [if_neg hd]
    exact hslen

/-- Claim C4 witness: a clean six-character input clamped to five. -/
theorem validate_text_truncates_before_checks_witness :
    (validate_text (some "aaaaaa".data) (some 5)).is_valid = true ∧
    (validate_text (some "aaaaaa".data) (some 5)).warnings =
      [truncationWarning 6 5] ∧
    (validate_text (some "aaaaaa".data) (some 5)).sanitized_value.length ≤ 5 := by
  have h := validate_text_truncates_before_checks "aaaaaa".data 5 (by decide) (by decide)
    (by decide) (by decide) (by decide) (by decide)
  exact ⟨h.1, by rw [h.2.1]; decide, h.2.2⟩

/-! ## Claim C9: IP validation -/

/-- Claim C9 counterexample: the basic IPv6 check accepts malformed
colon-containing strings such as `":"` and `"abc:"`, so not every malformed
IPv6 form is rejected and not only well-formed public addresses pass. -/
theorem is_valid_ip_accepts_malformed_ipv6 :
    is_valid_ip ":".data = true ∧ is_valid_ip "abc:".data = true := by decide

/-- Claim C9 (amended): IPv4 validation rejects malformed or out-of-range
octets, loopback, the RFC1918 private ranges and part counts other than four;
IPv6 validation rejects only the loopback `::1`, over-length strings and
strings with characters outside the hex/colon alphabet — other
colon-containing strings pass even when they are not well-formed IPv6. -/
theorem is_valid_ip_checks :
    (∀ ip : PyStr, (pySplitOn '.' ip).length = 4 →
      (pySplitOn '.' ip).all (fun p => pyIsDigitStr p && natOfDigits p ≤ 255) = false →
      is_valid_ip ip = false) ∧
    (∀ ip : PyStr, (pySplitOn '.' ip).length = 4 →
      natOfDigits ((pySplitOn '.' ip).getD 0 []) = 127 → is_valid_ip ip = false) ∧
    (∀ ip : PyStr, (pySplitOn '.' ip).length = 4 →
      natOfDigits ((pySplitOn '.' ip).getD 0 []) = 10 → is_valid_ip ip = false) ∧
    (∀ ip : PyStr, (pySplitOn '.' ip).length = 4 →
      natOfDigits ((pySplitOn '.' ip).getD 0 []) = 172 →
      16 ≤ natOfDigits ((pySplitOn '.' ip).getD 1 []) →
      natOfDigits ((pySplitOn '.' ip).getD 1 []) ≤ 31 → is_valid_ip ip = false) ∧
    (∀ ip : PyStr, (pySplitOn '.' ip).length = 4 →
      natOfDigits ((pySplitOn '.' ip).getD 0 []) = 192 →
      natOfDigits ((pySplitOn '.' ip).getD 1 []) = 168 → is_valid_ip ip = false) ∧
    (∀ ip : PyStr, (pySplitOn '.' ip).length ≠ 4 → ip.contains ':' = false →
      is_valid_ip ip = false) ∧
    (is_valid_ip "::1".data = false) ∧
    (∀ ip : PyStr, (pySplitOn '.' ip).length ≠ 4 → 45 < ip.length →
      is_valid_ip ip = false) ∧
    (∀ ip : PyStr, (pySplitOn '.' ip).length ≠ 4 →
      ip.all (fun c => "0123456789abcdefABCDEF:".data.contains c) = false →
      is_valid_ip ip = false) := by
  refine ⟨?_, ?_, ?_, ?_, ?_, ?_, by decide, ?_, ?_⟩
  · intro ip h1 h2
    simp only [is_valid_ip, h1, if_pos, h2, Bool.not_false, if_true]
  · intro ip h1 h2
    simp only [is_valid_ip, h1, if_pos]
    split_ifs <;> simp_all
  · intro ip h1 h2
    simp only [is_valid_ip, h1, if_pos]
    split_ifs <;> simp_all
  · intro ip h1 h2 h3 h4
    simp only [is_valid_ip, h1, if_pos]
    split_ifs <;> simp_all
  · intro ip h1 h2 h3
    simp only [is_valid_ip, h1, if_pos]
    split_ifs <;> simp_all
  · intro ip h1 h2
    simp only [is_valid_ip, h1, h2, if_neg, if_false, Bool.false_eq_true]
  · intro ip h1 h2
    simp only [is_valid_ip]
    split_ifs <;> simp_all
  · intro ip h1 h2
    simp only [is_valid_ip]
    split_ifs <;> simp_all

/-- Claim C9 witness: the amended properties at concrete addresses. -/
theorem is_valid_ip_checks_witness :
    is_valid_ip "256.1.1.1".data = false ∧
    is_valid_ip "1.2.x.4".data = false ∧
    is_valid_ip "127.0.0.1".data = false ∧
    is_valid_ip "10.0.0.1".data = false ∧
    is_valid_ip "172.16.0.1".data = false ∧
    is_valid_ip "192.168.1.1".data = false ∧
    is_valid_ip "not-an-ip".data = false ∧
    is_valid_ip "::1".data = false ∧
    is_valid_ip "0000:0000:0000:0000:0000:0000:0000:0000:0000:1".data = false ∧
    is_valid_ip "z:".data = false :=
  ⟨is_valid_ip_checks.1 _ (by decide) (by decide),
   is_valid_ip_checks.1 _ (by decide) (by decide),
   is_valid_ip_checks.2.1 _ (by decide) (by decide),
   is_valid_ip_checks.2.2.1 _ (by decide) (by decide),
   is_valid_ip_checks.2.2.2.1 _ (by decide) (by decide) (by decide) (by decide),
   is_valid_ip_checks.2.2.2.2.1 _ (by decide) (by decide) (by decide),
   is_valid_ip_checks.2.2.2.2.2.1 _ (by decide) (by decide),
   is_valid_ip_checks.2.2.2.2.2.2.1,
   is_valid_ip_checks.2.2.2.2.2.2.2.1 _ (by decide) (by decide),
   is_valid_ip_checks.2.2.2.2.2.2.2.2 _ (by decide) (by decide)⟩

/-! ## Claim C5: the 3-per-minute scenario -/

/-- Claim C5: with the in-process backend and a 3-per-minute limit, three
calls from one client inside the minute window are allowed, the fourth is
denied with `rate_limit_exceeded` and `retry_after = 60` and records no
timestamp (the buckets still hold exactly the three earlier timestamps), and
a different client in the same window is still allowed. -/
theorem rate_limit_three_per_minute_scenario :
    (let cfg := mkRateLimiter 3 500
     let reqA : Request := ⟨[], some "8.8.8.8".data⟩
     let r1 := check_rate_limit cfg initState reqA 0
     let r2 := check_rate_limit cfg r1.2 reqA 1
     let r3 := check_rate_limit cfg r2.2 reqA 2
     let r4 := check_rate_limit cfg r3.2 reqA 3
     r1.1.1 = true ∧ r2.1.1 = true ∧ r3.1.1 = true ∧ r4.1.1 = false ∧
       r4.1.2 = some ⟨"rate_limit_exceeded",
         "Rate limit exceeded: 3 requests per minute", 60⟩ ∧
       dictGet r4.2.minute_buckets "8.8.8.8".data = [0, 1, 2] ∧
       dictGet r4.2.hour_buckets "8.8.8.8".data = [0, 1, 2] ∧
       (check_rate_limit cfg r4.2 ⟨[], some "9.9.9.9".data⟩ 3).1.1 = true) := by decide

/-! ## Claim C6: eviction order under the tracked-client cap -/

/-- Claim C6 counterexample: with the cap set to 3 (as the repository's own
test suite does per instance), client `a1` has the most recent hour-window
activity but an empty minute bucket, so the eviction sorts it first (key 0)
and deletes it, while `b1` — the least recently active by hour-window
timestamp — survives.  Eviction is therefore not ordered by the most recent
hour-window timestamp. -/
theorem check_rate_limit_evicts_by_minute_bucket_not_hour :
    (let cfg : RateLimiterCfg := { mkRateLimiter 100 100 with MAX_TRACKED_CLIENTS := 3 }
     let st : RateLimiterState :=
       ⟨0, [("a1".data, []), ("b1".data, [10]), ("b2".data, [11]), ("b3".data, [12])],
           [("a1".data, [1000]), ("b1".data, [10]), ("b2".data, [11]), ("b3".data, [12])]⟩
     let r := check_rate_limit cfg st ⟨[], some "7.7.7.7".data⟩ 1020
     listMaxI (dictGet st.hour_buckets "a1".data) = 1000 ∧
       listMaxI (dictGet st.hour_buckets "b1".data) = 10 ∧
       r.2.minute_buckets.lookup "a1".data = none ∧
       r.2.hour_buckets.lookup "a1".data = none ∧
       r.2.minute_buckets.lookup "b1".data = some [10] ∧
       r.2.hour_buckets.lookup "b1".data = some [10]) := by decide

lemma mem_map_fst_dictErase (d : BucketMap) (j k : PyStr) :
    k ∈ (dictErase d j).map Prod.fst ↔ k ∈ d.map Prod.fst ∧ k ≠ j := by
  simp only [dictErase, List.mem_map, List.mem_filter, bne_iff_ne]
  constructor
  · rintro ⟨e, ⟨he, hne⟩, rfl⟩
    exact ⟨⟨e, he, rfl⟩, hne⟩
  · rintro ⟨⟨e, he, rfl⟩, hne⟩
    exact ⟨e, ⟨he, hne⟩, rfl⟩

lemma mem_foldl_erase (ks : List PyStr) (d : BucketMap) (k : PyStr) :
    k ∈ (ks.foldl dictErase d).map Prod.fst ↔ k ∈ d.map Prod.fst ∧ k ∉ ks := by
  induction ks generalizing d with
  | nil => simp
  | cons j ks ih =>
    simp only [List.foldl_cons, ih, mem_map_fst_dictErase, List.mem_cons]
    constructor
    · rintro ⟨⟨hd, hne⟩, hnin⟩
      refine ⟨hd, ?_⟩
      rintro (rfl | h)
      · exact hne rfl
      · exact hnin h
    · rintro ⟨hd, hnin⟩
      exact ⟨⟨hd, fun e => hnin (Or.inl e)⟩, fun h => hnin (Or.inr h)⟩

lemma length_dictErase_of_mem :
    ∀ d : BucketMap, (d.map Prod.fst).Nodup → ∀ j ∈ d.map Prod.fst,
      (dictErase d j).length = d.length - 1 := by
  intro d
  induction d with
  | nil => simp
  | cons e d ih =>
    intro hnd j hj
    have hnd2 : (d.map Prod.fst).Nodup := (List.nodup_cons.mp hnd).2
    have hhead : e.1 ∉ d.map Prod.fst := (List.nodup_cons.mp hnd).1
    simp only [dictErase, List.filter_cons]
    rcases List.mem_cons.mp hj with rfl | hjd
    · have hkeep : ∀ x ∈ d, (x.1 != e.1) = true := by
        intro x hx
        rw [bne_iff_ne]
        intro hx1
        exact hhead (hx1 ▸ List.mem_map_of_mem Prod.fst hx)
      rw [show (e.1 != e.1) = false by simp, List.filter_eq_self.mpr hkeep]
      simp
    · have hne : e.1 ≠ j := by
        rintro rfl
        exact hhead hjd
      rw [show (e.1 != j) = true by rwa [bne_iff_ne], if_pos rfl]
      have hrec := ih hnd2 j hjd
      have hlen : 1 ≤ d.length := by
        rcases d with _ | ⟨x, d⟩
        · simp at hjd
        · simp
      simp only [dictErase] at hrec
      simp [hrec]
      omega

lemma map_fst_dictErase (d : BucketMap) (j : PyStr) :
    (dictErase d j).map Prod.fst = (d.map Prod.fst).filter (fun k => k != j) := by
  induction d with
  | nil => rfl
  | cons e d ihd =>
    simp only [dictErase, List.filter_cons, List.map_cons]
    by_cases he : (e.1 != j) = true
    · rw [if_pos he, if_pos he, List.map_cons]
      simp only [dictErase] at ihd
      rw [ihd]
    · rw [if_neg he, if_neg he]
      simp only [dictErase] at ihd
      exact ihd

lemma length_foldl_erase :
    ∀ (ks : List PyStr) (d : BucketMap), ks.Nodup → (∀ k ∈ ks, k ∈ d.map Prod.fst) →
      (d.map Prod.fst).Nodup → (ks.foldl dictErase d).length = d.length - ks.length := by
  intro ks
  induction ks with
  | nil => intro d _ _ _; simp
  | cons j ks ih =>
    intro d hnd hsub hdnd
    have hj : j ∈ d.map Prod.fst := hsub j (List.mem_cons_self j ks)
    have hjnin : j ∉ ks := (List.nodup_cons.mp hnd).1
    have hks : ks.Nodup := (List.nodup_cons.mp hnd).2
    have hnd2 : ((dictErase d j).map Prod.fst).Nodup := by
      rw [map_fst_dictErase]
      exact hdnd.filter _
    have hsub2 : ∀ k ∈ ks, k ∈ (dictErase d j).map Prod.fst := by
      intro k hk
      rw [mem_map_fst_dictErase]
      refine ⟨hsub k (List.mem_cons_of_mem j hk), ?_⟩
      rintro rfl
      exact hjnin hk
    have hlen1 : (dictErase d j).length = d.length - 1 := length_dictErase_of_mem d hdnd j hj
    rw [List.foldl_cons, ih (dictErase d j) hks hsub2 hnd2, hlen1]
    simp only [List.length_cons]
    omega

/-- Claim C6 (amended): when the tracked-client count exceeds the cap, the
eviction step removes exactly `count - cap` clients — those least recently
active as measured by each client's last minute-bucket timestamp (`0` for an
empty minute bucket), not by hour-window timestamp — leaving exactly `cap`
tracked clients before the new client is admitted: every evicted client's
minute-bucket key is at most every survivor's. -/
theorem evict_oldest_orders_by_minute_key :
    ∀ (cap : Nat) (mb hb : BucketMap), (mb.map Prod.fst).Nodup → cap < mb.length →
      (evict_oldest cap mb hb).1.length = cap ∧
      (∀ k ∈ mb.map Prod.fst, k ∉ (evict_oldest cap mb hb).1.map Prod.fst →
        ∀ k2 ∈ (evict_oldest cap mb hb).1.map Prod.fst,
          minuteKey mb k ≤ minuteKey mb k2) := by
  intro cap mb hb hnd hlt
  haveI inst1 : IsTotal PyStr (fun a b => minuteKey mb a ≤ minuteKey mb b) :=
    ⟨fun a b => le_total _ _⟩
  haveI inst2 : IsTrans PyStr (fun a b => minuteKey mb a ≤ minuteKey mb b) :=
    ⟨fun a b c h1 h2 => le_trans h1 h2⟩
  have hperm := List.perm_insertionSort
    (fun a b => minuteKey mb a ≤ minuteKey mb b) (mb.map Prod.fst)
  have hsorted := List.sorted_insertionSort
    (fun a b => minuteKey mb a ≤ minuteKey mb b) (mb.map Prod.fst)
  have hlensort : (List.insertionSort (fun a b => minuteKey mb a ≤ minuteKey mb b)
      (mb.map Prod.fst)).length = mb.length := by
    rw [hperm.length_eq, List.length_map]
  have hnds : (List.insertionSort (fun a b => minuteKey mb a ≤ minuteKey mb b)
      (mb.map Prod.fst)).Nodup := hperm.nodup_iff.mpr hnd
  have hresult : (evict_oldest cap mb hb).1 =
      ((List.insertionSort (fun a b => minuteKey mb a ≤ minuteKey mb b)
        (mb.map Prod.fst)).take (mb.length - cap)).foldl dictErase mb := rfl
  have holdnd : ((List.insertionSort (fun a b => minuteKey mb a ≤ minuteKey mb b)
      (mb.map Prod.fst)).take (mb.length - cap)).Nodup :=
    hnds.sublist (List.take_sublist _ _)
  have holdsub : ∀ k ∈ (List.insertionSort (fun a b => minuteKey mb a ≤ minuteKey mb b)
      (mb.map Prod.fst)).take (mb.length - cap), k ∈ mb.map Prod.fst := by
    intro k hk
    exact hperm.subset (List.take_subset _ _ hk)
  have holdlen : ((List.insertionSort (fun a b => minuteKey mb a ≤ minuteKey mb b)
      (mb.map Prod.fst)).take (mb.length - cap)).length = mb.length - cap := by
    rw [List.length_take, hlensort]
    omega
  constructor
  · rw [hresult, length_foldl_erase _ _ holdnd holdsub hnd, holdlen]
    omega
  · intro k hk hknotin k2 hk2in
    rw [hresult] at hknotin hk2in
    have hkold : k ∈ (List.insertionSort (fun a b => minuteKey mb a ≤ minuteKey mb b)
        (mb.map Prod.fst)).take (mb.length - cap) := by
      by_contra hc
      exact hknotin ((mem_foldl_erase _ _ _).mpr ⟨hk, hc⟩)
    have hk2props := (mem_foldl_erase _ _ _).mp hk2in
    have hk2sort : k2 ∈ List.insertionSort (fun a b => minuteKey mb a ≤ minuteKey mb b)
        (mb.map Prod.fst) := hperm.mem_iff.mpr hk2props.1
    have hk2drop : k2 ∈ (List.insertionSort (fun a b => minuteKey mb a ≤ minuteKey mb b)
        (mb.map Prod.fst)).drop (mb.length - cap) := by
      rw [← List.take_append_drop (mb.length - cap)
        (List.insertionSort (fun a b => minuteKey mb a ≤ minuteKey mb b)
          (mb.map Prod.fst))] at hk2sort
      rcases List.mem_append.mp hk2sort with h | h
      · exact absurd h hk2props.2
      · exact h
    have hpw : List.Pairwise (fun a b => minuteKey mb a ≤ minuteKey mb b)
        ((List.insertionSort (fun a b => minuteKey mb a ≤ minuteKey mb b)
          (mb.map Prod.fst)).take (mb.length - cap) ++
         (List.insertionSort (fun a b => minuteKey mb a ≤ minuteKey mb b)
          (mb.map Prod.fst)).drop (mb.length - cap)) := by
      rw [List.take_append_drop]
      exact hsorted
    exact (List.pairwise_append.mp hpw).2.2 k hkold k2 hk2drop


/-- Claim C6 witness: the amended eviction property at a concrete two-client
state with cap 1: the client with the smaller minute-bucket key is evicted
and the survivor count equals the cap. -/
theorem evict_oldest_orders_by_minute_key_witness :
    (evict_oldest 1 [("a".data, [5]), ("b".data, [3])] []).1.length = 1 ∧
    minuteKey [("a".data, [5]), ("b".data, [3])] "b".data ≤
      minuteKey [("a".data, [5]), ("b".data, [3])] "a".data :=
  ⟨(evict_oldest_orders_by_minute_key 1 [("a".data, [5]), ("b".data, [3])] []
      (by decide) (by decide)).1,
   (evict_oldest_orders_by_minute_key 1 [("a".data, [5]), ("b".data, [3])] []
      (by decide) (by decide)).2 "b".data (by decide) (by decide) "a".data (by decide)⟩

end Security
